import Mathlib

/-!
Verification of the nemoa RBM training core (nemoa/system/rbm.py and
nemoa/system/base.py) against its natural-language specification.

Numeric values are embedded as rationals.  Where IEEE-754 non-finite
values matter (claim C2) we use `EF`, rationals extended with a single
absorbing non-finite element, mirroring how NaN propagates through
numpy arithmetic.  Matrices are total functions on `Fin`-indexed
ranges (rows = samples); numpy's `size` of an `N × V` array is `N * V`.
-/

namespace Nemoa

/-- Rationals extended with an absorbing non-finite element, modelling the
propagation behaviour of IEEE NaN/Inf through numpy arithmetic: any
operation touching the non-finite element is non-finite, and division by
zero is non-finite. -/
inductive EF where
  | fin : ℚ → EF
  | nan : EF
deriving DecidableEq

instance : Zero EF := ⟨EF.fin 0⟩

instance : Add EF where
  add a b := match a, b with
    | .fin x, .fin y => .fin (x + y)
    | _, _ => .nan

instance : Sub EF where
  sub a b := match a, b with
    | .fin x, .fin y => .fin (x - y)
    | _, _ => .nan

instance : Neg EF where
  neg a := match a with
    | .fin x => .fin (-x)
    | .nan => .nan

instance : Mul EF where
  mul a b := match a, b with
    | .fin x, .fin y => .fin (x * y)
    | _, _ => .nan

instance : Div EF where
  div a b := match a, b with
    | .fin x, .fin y => if y = 0 then .nan else .fin (x / y)
    | _, _ => .nan

instance : Max EF where
  max a b := match a, b with
    | .fin x, .fin y => .fin (max x y)
    | _, _ => .nan

/-- Order on extended floats: comparisons involving the non-finite element
are false, as for IEEE NaN. -/
def EF.flt : EF → EF → Prop
  | .fin x, .fin y => x < y
  | _, _ => False

instance : LT EF := ⟨EF.flt⟩

instance : DecidableRel ((· < ·) : EF → EF → Prop)
  | .fin x, .fin y => inferInstanceAs (Decidable (x < y))
  | .fin _, .nan => isFalse id
  | .nan, .fin _ => isFalse id
  | .nan, .nan => isFalse id

instance : NatCast EF := ⟨fun n => .fin n⟩

/-- numpy 2-D array with `n` rows (samples) and `m` columns. -/
abbrev Mat (n m : ℕ) (α : Type) := Fin n → Fin m → α

/-- numpy row vector of length `m` (shape `(1, m)` in the source). -/
abbrev Vec (m : ℕ) (α : Type) := Fin m → α

section GenericScalars

variable {α : Type} [Zero α] [Add α] [Sub α] [Neg α] [Mul α] [Div α]
  [Max α] [LT α] [DecidableRel ((· < ·) : α → α → Prop)] [NatCast α]
variable {N V H : ℕ}

/-- Sum of the values of a `Fin`-indexed family, as numpy `sum`. -/
def finSum : {n : ℕ} → (Fin n → α) → α
  | 0, _ => 0
  | _ + 1, f => f 0 + finSum (fun i => f i.succ)

/-- `numpy.mean(M, axis = 0)` at column `j`: column sum over the `n`
samples divided by the (cast) sample count.  For `n = 0` this is `0 / 0`,
which is NaN in numpy and the non-finite element in `EF`. -/
def colMean (M : Mat N V α) (j : Fin V) : α :=
  finSum (fun s => M s j) / ((N : ℕ) : α)

/-- Entry `(i, j)` of `numpy.dot(A.T, B)` for `A : n × v`, `B : n × h`. -/
def dotT (A : Mat N V α) (B : Mat N H α) (i : Fin V) (j : Fin H) : α :=
  finSum (fun s => A s i * B s j)

/-- Sum of all entries of a matrix (numpy sum over the flattened array). -/
def matSum (M : Mat N V α) : α :=
  finSum (fun i => finSum (fun j => M i j))

/-- `numpy.mean` of all entries of a matrix. -/
def matMean (M : Mat N V α) : α :=
  matSum M / ((N * V : ℕ) : α)

/-- `numpy.var` of a matrix: population variance of the flattened array. -/
def matVar (M : Mat N V α) : α :=
  let mu := matMean M
  matSum (fun i j => (M i j - mu) * (M i j - mu)) / ((N * V : ℕ) : α)

/-- The keys of the `optimize` section of the system configuration read by
the embedded code paths (rbm.py `_default`, grbm `_default`, and the
schedule-merged dictionary).  `updateRate` and `updates` are mutated
during a run (by `_optVmraUpdate` and the tracker respectively), which the
embedding models by returning an updated copy. -/
structure OptCfg (α : Type) where
  algorithm : String
  updates : ℕ
  minibatchInterval : ℕ
  updateCdkSteps : ℕ
  updateCdkIterations : ℕ
  updateRate : α
  updateFactorWeights : α
  updateFactorHbias : α
  updateFactorVbias : α
  updateFactorVlvar : α
  ignoreUnits : List String
  modKlEnable : Bool
  modKlRate : α
  modKlExpect : α
  selectivityFactor : α
  modVmraEnable : Bool
  modVmraInterval : ℕ
  modVmraWait : ℕ
  modVmraLength : ℕ
  modVmraFactor : α
  modVmraMinRate : α
  modVmraMaxRate : α
  checkDataset : Bool
deriving DecidableEq

/-- The 4-tuple `(vData, hData, vModel, hModel)` produced by
`rbm._optCdSampling` (rbm.py lines 200-250). -/
structure DTuple (N V H : ℕ) (α : Type) where
  vData : Mat N V α
  hData : Mat N H α
  vModel : Mat N V α
  hModel : Mat N H α

/-- The mutable system parameters of the two-layer machine: visible bias,
visible log-variance (present only for gauss visible units; the plain RBM
never touches it), hidden bias, and the link weight matrix
`_params['links'][(0, 1)]['W']`. -/
structure Params (V H : ℕ) (α : Type) where
  vbias : Vec V α
  vlvar : Vec V α
  hbias : Vec H α
  W : Mat V H α

/-- A delta dictionary for the visible unit group as returned by
`_optCdDeltaV`: a bias delta, and a log-variance delta when the visible
units are gaussian (grbm). -/
structure VDelta (V : ℕ) (α : Type) where
  bias : Vec V α
  lvar : Option (Vec V α)

/-- Modelled from the spec: the unit-group `update(deltas)` operation of
the external unit-group collaborator (its source, nemoa/system/ann.py, is
not in the repository snapshot).  Per spec sections 3 and 4.2 the deltas
are applied additively to the corresponding parameter vectors: the bias
delta is added to the bias, and the log-variance delta, when present, is
added to the log-variance. -/
def unitUpdateV (p : Params V H α) (d : VDelta V α) : Params V H α :=
  { p with
    vbias := fun i => p.vbias i + d.bias i
    vlvar := match d.lvar with
      | some l => fun i => p.vlvar i + l i
      | none => p.vlvar }

/-- `rbm._optCdDeltaV` (rbm.py lines 280-292): bias delta
`r * mean(vData - vModel, axis = 0)` with `r = updateRate *
updateFactorVbias`; sigmoid visible units have no log-variance delta. -/
def optCdDeltaV (cfg : OptCfg α) (t : DTuple N V H α) : VDelta V α :=
  let r := cfg.updateRate * cfg.updateFactorVbias
  { bias := fun j => r * colMean (fun s i => t.vData s i - t.vModel s i) j
    lvar := none }

/-- `rbm._optCdDeltaH` (rbm.py lines 294-306): bias delta
`r * mean(hData - hModel, axis = 0)` with `r = updateRate *
updateFactorHbias`.  Not overridden by grbm. -/
def optCdDeltaH (cfg : OptCfg α) (t : DTuple N V H α) (j : Fin H) : α :=
  let r := cfg.updateRate * cfg.updateFactorHbias
  r * colMean (fun s i => t.hData s i - t.hModel s i) j

/-- `rbm._optCdDeltaL` (rbm.py lines 308-320): weight delta
`r * (dot(vData.T, hData) / vData.size - dot(vModel.T, hModel) /
vData.size)` with `r = updateRate * updateFactorWeights`.  Note that the
source divides by `vData.size`, the number of matrix elements `N * V`,
not by the sample count `N`. -/
def optCdDeltaL (cfg : OptCfg α) (t : DTuple N V H α) (i : Fin V) (j : Fin H) : α :=
  let r := cfg.updateRate * cfg.updateFactorWeights
  r * (dotT t.vData t.hData i j / ((N * V : ℕ) : α)
       - dotT t.vModel t.hModel i j / ((N * V : ℕ) : α))

/-- `rbm._optKlDeltaH` (rbm.py lines 322-342): sparsity (KL) delta
`-max(updateRate, modKlRate) * (mean(hData, axis = 0) - modKlExpect)`. -/
def optKlDeltaH (cfg : OptCfg α) (t : DTuple N V H α) (j : Fin H) : α :=
  let r := max cfg.updateRate cfg.modKlRate
  let dBias := -r * (colMean t.hData j - cfg.modKlExpect)
  dBias

/-- The subclass-overridable delta computations: `_optCdDeltaV` and
`_optCdDeltaL` are overridden by grbm, `_optCdDeltaH` is shared. -/
structure CdVariant (N V H : ℕ) (α : Type) where
  deltaV : OptCfg α → Params V H α → DTuple N V H α → VDelta V α
  deltaL : OptCfg α → Params V H α → DTuple N V H α → Fin V → Fin H → α

/-- The `rbm` class variant: its delta methods read only the
configuration and the sampling tuple. -/
def rbmVariant : CdVariant N V H α where
  deltaV cfg _ t := optCdDeltaV cfg t
  deltaL cfg _ t := optCdDeltaL cfg t

/-- `rbm._optCdUpdate` (rbm.py lines 252-278).  The three deltas are
computed first, from the pre-update parameters ("without affecting the
calculations"), for the parameter classes not listed in `ignoreUnits`;
they are then applied in the order visible, hidden, links.  When
`modKlEnable` holds the sparsity delta is added to the hidden bias, and
when `selectivityFactor > 0.0` the selectivity branch adds the result of
the very same `_optKlDeltaH` call a second time; both are guarded by
`'hidden' not in ignoreUnits`. -/
def optCdUpdate (variant : CdVariant N V H α) (cfg : OptCfg α)
    (p : Params V H α) (t : DTuple N V H α) : Params V H α :=
  let ignore := cfg.ignoreUnits
  let dV := variant.deltaV cfg p t
  let dH := fun j => optCdDeltaH cfg t j
  let dL := variant.deltaL cfg p t
  let p1 := if "visible" ∈ ignore then p else unitUpdateV p dV
  let p2 := if "hidden" ∈ ignore then p1 else
    { p1 with hbias := fun j => p1.hbias j + dH j }
  let p3 := if "links" ∈ ignore then p2 else
    { p2 with W := fun i j => p2.W i j + dL i j }
  let p4 := if cfg.modKlEnable ∧ "hidden" ∉ ignore then
    { p3 with hbias := fun j => p3.hbias j + optKlDeltaH cfg t j } else p3
  let p5 := if (0 : α) < cfg.selectivityFactor ∧ "hidden" ∉ ignore then
    { p4 with hbias := fun j => p4.hbias j + optKlDeltaH cfg t j } else p4
  p5

end GenericScalars

section GrbmDeltas

variable {N V H : ℕ}

/-- `grbm._optCdDeltaV` (rbm.py lines 554-578).  `expFn` models
`numpy.exp`, an external numeric primitive, as an abstract function; the
per-unit variance is `expFn` of the visible log-variance.  The bias delta
divides the plain difference of means by the variance; the log-variance
delta is the difference, under data and model distributions, of the
per-unit mean of the modified quadratic energy term
`0.5 * (x - bias)^2 - x * dot(h, W.T)`, divided by the variance. -/
def grbmOptCdDeltaV (expFn : ℚ → ℚ) (cfg : OptCfg ℚ) (p : Params V H ℚ)
    (t : DTuple N V H ℚ) : VDelta V ℚ :=
  let var := fun i => expFn (p.vlvar i)
  let r1 := cfg.updateRate * cfg.updateFactorVbias
  let r2 := cfg.updateRate * cfg.updateFactorVlvar
  let d := fun i => colMean
    (fun s i' => (1 / 2 : ℚ) * (t.vData s i' - p.vbias i') ^ 2
      - t.vData s i' * finSum (fun j => t.hData s j * p.W i' j)) i
  let m := fun i => colMean
    (fun s i' => (1 / 2 : ℚ) * (t.vModel s i' - p.vbias i') ^ 2
      - t.vModel s i' * finSum (fun j => t.hModel s j * p.W i' j)) i
  let diff := fun i => colMean (fun s i' => t.vData s i' - t.vModel s i') i
  { bias := fun i => r1 * diff i / var i
    lvar := some (fun i => r2 * (d i - m i) / var i) }

/-- `grbm._optCdDeltaL` (rbm.py lines 580-594): the rbm weight delta
additionally divided, row-wise, by the per-visible-unit variance
`numpy.exp(lvar).T`.  Like `rbm._optCdDeltaL` it divides the dot products
by `vData.size = N * V`, not by the sample count. -/
def grbmOptCdDeltaL (expFn : ℚ → ℚ) (cfg : OptCfg ℚ) (p : Params V H ℚ)
    (t : DTuple N V H ℚ) (i : Fin V) (j : Fin H) : ℚ :=
  let r := cfg.updateRate * cfg.updateFactorWeights
  r * (dotT t.vData t.hData i j / ((N * V : ℕ) : ℚ)
       - dotT t.vModel t.hModel i j / ((N * V : ℕ) : ℚ)) / expFn (p.vlvar i)

/-- The `grbm` class variant: overrides the visible and link deltas. -/
def grbmVariant (expFn : ℚ → ℚ) : CdVariant N V H ℚ where
  deltaV := grbmOptCdDeltaV expFn
  deltaL := grbmOptCdDeltaL expFn

end GrbmDeltas

section Sampling

variable {α RS : Type} [Zero α] [Add α] [Div α] [NatCast α]
variable {N V H : ℕ}

/-- Modelled from the spec: the per-group expectation and sampling
primitives of the UnitModel collaborator (`_evalUnitExpect` and
`_evalUnitSamples`, defined in nemoa/system/ann.py which is not in the
repository snapshot).  Expectations are deterministic; sampling draws
from a random source threaded through explicitly as a state `RS`.  One
field per call shape used by `rbm._optCdSampling`:
`expectVH data = _evalUnitExpect(data, ('visible', 'hidden'))`,
`expectHV h = _evalUnitExpect(h, ('hidden', 'visible'))`,
`sampleH h = _evalUnitSamples(h, ('hidden', ))`,
`sampleVHexp v = _evalUnitSamples(v, ('visible', 'hidden'), expectLast = True)`,
`sampleHVexp h = _evalUnitSamples(h, ('hidden', 'visible'), expectLast = True)`. -/
structure SampleOps (N V H : ℕ) (α RS : Type) where
  expectVH : Mat N V α → Mat N H α
  expectHV : Mat N H α → Mat N V α
  sampleH : Mat N H α → RS → Mat N H α × RS
  sampleVHexp : Mat N V α → RS → Mat N H α × RS
  sampleHVexp : Mat N H α → RS → Mat N V α × RS

/-- One Gibbs chain of `rbm._optCdSampling` (rbm.py lines 230-245): the
inner `for j in range(k)` loop, with `hIn` the hidden array the next
hidden sample is drawn from (`hData` on the first step, the previous
step's `hExpect` afterwards).  Every step draws a stochastic hidden
sample and propagates it to a visible expectation; the last step computes
the hidden expectation from `vExpect` instead of sampling.  Returns the
final `(vExpect, hExpect)`.  The argument counts the remaining steps; the
`0` case is unreachable from the source loop (in Python, `k = 0` would
leave `vExpect` unbound and raise NameError). -/
def cdChainGo (ops : SampleOps N V H α RS) :
    ℕ → Mat N H α → RS → (Mat N V α × Mat N H α) × RS
  | 0, _, rs => ((fun _ _ => 0, fun _ _ => 0), rs)
  | 1, hIn, rs =>
    let s1 := ops.sampleH hIn rs
    let vExpect := ops.expectHV s1.1
    let hExpect := ops.expectVH vExpect
    ((vExpect, hExpect), s1.2)
  | r + 2, hIn, rs =>
    let s1 := ops.sampleH hIn rs
    let vExpect := ops.expectHV s1.1
    let s2 := ops.sampleVHexp vExpect s1.2
    cdChainGo ops (r + 1) s2.1 s2.2

/-- The `for i in range(m)` loop of `rbm._optCdSampling` (rbm.py lines
230-248): runs the remaining chains, each starting from `hData`, and
accumulates `vExpect / m` and `hExpect / m` into the running model
averages. -/
def cdChains (ops : SampleOps N V H α RS) (k m : ℕ) (hData : Mat N H α) :
    ℕ → Mat N V α → Mat N H α → RS → (Mat N V α × Mat N H α) × RS
  | 0, vAcc, hAcc, rs => ((vAcc, hAcc), rs)
  | l + 1, vAcc, hAcc, rs =>
    let c := cdChainGo ops k hData rs
    cdChains ops k m hData l
      (fun s i => vAcc s i + c.1.1 s i / ((m : ℕ) : α))
      (fun s j => hAcc s j + c.1.2 s j / ((m : ℕ) : α))
      c.2

/-- The general (non-fast-path) branch of `rbm._optCdSampling` (rbm.py
lines 228-250): `hData` is the hidden expectation of the input data;
`vModel`, `hModel` start as zero arrays and accumulate the `m` chains'
final expectations, each divided by `m`. -/
def optCdSamplingGen (ops : SampleOps N V H α RS) (k m : ℕ)
    (data : Mat N V α) (rs : RS) : DTuple N V H α × RS :=
  let hData := ops.expectVH data
  let c := cdChains ops k m hData m (fun _ _ => 0) (fun _ _ => 0) rs
  (⟨data, hData, c.1.1, c.1.2⟩, c.2)

/-- `rbm._optCdSampling` (rbm.py lines 200-250): for `k = 1, m = 1` the
fast path draws the visible sample directly from `hData` and returns its
hidden expectation; otherwise the general Gibbs loop runs. -/
def optCdSampling (ops : SampleOps N V H α RS) (k m : ℕ)
    (data : Mat N V α) (rs : RS) : DTuple N V H α × RS :=
  let hData := ops.expectVH data
  if k = 1 ∧ m = 1 then
    let s1 := ops.sampleHVexp hData rs
    let vModel := s1.1
    let hModel := ops.expectVH vModel
    (⟨data, hData, vModel, hModel⟩, s1.2)
  else optCdSamplingGen ops k m data rs

end Sampling

section Tracker

/-- The tracker fields relevant to epoch counting and abort handling
(base.py, class `tracker`).  `started` models whether `_state` has been
initialized (`self._state == {}` on a fresh tracker).  Wall-clock fields
(`startTime`, `inspectTime`), the duration-estimation flags and the
inspection log are omitted: they are driven by real time and by the
external metric evaluation, and none of them feed back into `epoch`,
`abort` or the configured update count. -/
structure TrackerSt where
  started : Bool
  epoch : ℕ
  abort : Bool
deriving DecidableEq

/-- A fresh tracker: `_state = {}`. -/
def trackerFresh : TrackerSt := ⟨false, 0, false⟩

/-- Return value of `tracker.trigger`: `True`, or the string `'abort'`. -/
inductive TrigRes where
  | ok : TrigRes
  | abort : TrigRes
deriving DecidableEq

/-- `tracker._triggerKeyEvent` (base.py lines 693-704): a non-blocking
single-character read from the abort source (`nemoa.common.getch`, an
external collaborator, modelled as the `key` input).  If the character
`'q'` is read, the configured total update count
(`system._config['optimize']['updates']`) is truncated to the current
epoch and the abort flag is set. -/
def triggerKeyEvent (key : Option Char) (ts : TrackerSt) (updates : ℕ) :
    TrackerSt × ℕ :=
  match key with
  | some c =>
    if c = 'q' then ({ ts with abort := true }, ts.epoch)
    else (ts, updates)
  | none => (ts, updates)

/-- `tracker.trigger` (base.py lines 644-674): initializes the state on
the first call (`_initState`: epoch 0, abort flag cleared), increments
the epoch, polls the abort source, and returns `'abort'` when the abort
flag is set.  Returns the new tracker state, the (possibly truncated)
configured update count, and the result value.  The wall-clock duration
estimation and the rate-limited metric inspection read these fields but
never write them. -/
def trigger (key : Option Char) (ts : TrackerSt) (updates : ℕ) :
    TrackerSt × ℕ × TrigRes :=
  let t0 := if ts.started then ts else ⟨true, 0, false⟩
  let t1 := { t0 with epoch := t0.epoch + 1 }
  let ke := triggerKeyEvent key t1 updates
  (ke.1, ke.2, if ke.1.abort then TrigRes.abort else TrigRes.ok)

/-- Repeated `trigger()` calls, one per element of `keys`, threading the
tracker state and the configured update count. -/
def runTriggers (keys : List (Option Char)) (ts : TrackerSt) (updates : ℕ) :
    TrackerSt × ℕ :=
  match keys with
  | [] => (ts, updates)
  | key :: rest =>
    let r := trigger key ts updates
    runTriggers rest r.1 r.2.1

end Tracker

section Vmra

variable {V H : ℕ}

/-- The slope coefficient returned by
`numpy.linalg.lstsq(A.T, wVar)[0][0]` in `rbm._optVmraUpdate`, where
`A.T` has the columns `arange(0, L)` and `ones(L)` and `L = ws.length`:
the least-squares regression slope of the values `ws` against the
indices `0, 1, ..., L - 1`, in closed form
`(L * Σ x y - Σ x * Σ y) / (L * Σ x ^ 2 - (Σ x) ^ 2)`. -/
def lstsqSlope (ws : List ℚ) : ℚ :=
  let L := ws.length
  let y : ℕ → ℚ := fun i => ws.getD i 0
  let sx : ℚ := ∑ i ∈ Finset.range L, (i : ℚ)
  let sy : ℚ := ∑ i ∈ Finset.range L, y i
  let sxx : ℚ := ∑ i ∈ Finset.range L, (i : ℚ) ^ 2
  let sxy : ℚ := ∑ i ∈ Finset.range L, (i : ℚ) * y i
  ((L : ℚ) * sxy - sx * sy) / ((L : ℚ) * sxx - sx ^ 2)

/-- `rbm._optVmraUpdate` (rbm.py lines 178-198): prepends the variance of
the current weight matrix to the stored history (`wVarStore`, newest
first; an absent store entry behaves like the empty list).  Once the
history exceeds the configured window `modVmraLength` it is truncated to
the window, the regression slope of variance against index is negated
into `grad`, and the update rate is set to
`min(max(modVmraFactor * grad, modVmraMinRate), modVmraMaxRate)`.
Returns the configuration (with the possibly-updated `updateRate`) and
the history written back to the tracker store. -/
def optVmraUpdate (cfg : OptCfg ℚ) (wVarStore : List ℚ) (W : Mat V H ℚ) :
    OptCfg ℚ × List ℚ :=
  let var := matVar W
  let wVar := var :: wVarStore
  if cfg.modVmraLength < wVar.length then
    let wVar2 := wVar.take cfg.modVmraLength
    let grad := -lstsqSlope wVar2
    let delw := cfg.modVmraFactor * grad
    ({ cfg with updateRate := min (max delw cfg.modVmraMinRate) cfg.modVmraMaxRate },
      wVar2)
  else (cfg, wVar)

end Vmra

section OuterLoop

variable {N V H : ℕ} {RS : Type}

/-- `system._isDatasetGaussNormalized` (base.py lines 399-433) with its
default thresholds `maxMean = 0.05` and `maxSdev = 1.05`, applied to the
sample matrix returned by `dataset.getData(100000)`.  The source
compares the standard deviation `data.std()` against `maxSdev`; since
both are nonnegative this is embedded as the equivalent comparison of
the population variance against `maxSdev ^ 2`, which keeps the
definition inside the rationals. -/
def isDatasetGaussNormalized (data : Mat N V ℚ) : Bool :=
  let mean := matMean data
  if (1 / 20 : ℚ) ≤ |mean| then false
  else if ((21 / 20 : ℚ)) ^ 2 ≤ matVar data then false
  else true

/-- The external inputs of one optimization run: the UnitModel sampling
primitives, the dataset minibatch fetch `_optGetData` (per epoch index),
and the keyboard abort source (per epoch index). -/
structure CdEnv (N V H : ℕ) (RS : Type) where
  ops : SampleOps N V H ℚ RS
  getData : ℕ → Mat N V ℚ
  keys : ℕ → Option Char

/-- The state threaded through the epoch loop of `rbm._optCd`: the
configuration (whose `updateRate` and `updates` entries are mutated
during the run), the system parameters, the current minibatch, the
random source, the tracker state and the tracker-stored weight-variance
history. -/
structure LoopSt (N V H : ℕ) (RS : Type) where
  cfg : OptCfg ℚ
  p : Params V H ℚ
  data : Mat N V ℚ
  rs : RS
  ts : TrackerSt
  wVar : List ℚ

/-- One epoch of `rbm._optCd` (rbm.py lines 156-174): refresh the
minibatch when `epoch % minibatchInterval == 0`; run CD sampling; when
rate adaption is enabled and the epoch is on the adaption cadence and
past the wait threshold, run `_optVmraUpdate` (on the pre-update weight
matrix); apply `_optCdUpdate`; finally trigger the tracker, which reads
the abort source and may truncate the configured update count. -/
def optCdStep (variant : CdVariant N V H ℚ) (env : CdEnv N V H RS)
    (epoch : ℕ) (st : LoopSt N V H RS) : LoopSt N V H RS × TrigRes :=
  let data := if epoch % st.cfg.minibatchInterval = 0 then env.getData epoch
    else st.data
  let smp := optCdSampling env.ops st.cfg.updateCdkSteps
    st.cfg.updateCdkIterations data st.rs
  let vm := if st.cfg.modVmraEnable
      ∧ epoch % st.cfg.modVmraInterval = 0 ∧ st.cfg.modVmraWait < epoch then
    optVmraUpdate st.cfg st.wVar st.p.W
  else (st.cfg, st.wVar)
  let p2 := optCdUpdate variant vm.1 st.p smp.1
  let tr := trigger (env.keys epoch) st.ts vm.1.updates
  ({ cfg := { vm.1 with updates := tr.2.1 }, p := p2, data := data,
     rs := smp.2, ts := tr.1, wVar := vm.2 }, tr.2.2)

/-- The epoch loop of `rbm._optCd`: iterates over the epochs fixed at
loop entry (`xrange(cfg['updates'])` is evaluated once), breaking when
the tracker reports `'abort'`. -/
def optCdGo (variant : CdVariant N V H ℚ) (env : CdEnv N V H RS) :
    ℕ → ℕ → LoopSt N V H RS → LoopSt N V H RS
  | 0, _, st => st
  | r + 1, epoch, st =>
    let s := optCdStep variant env epoch st
    match s.2 with
    | TrigRes.abort => s.1
    | TrigRes.ok => optCdGo variant env r (epoch + 1) s.1

/-- `rbm._optCd` (rbm.py lines 151-176): runs the epoch loop and always
returns `True`, also after an abort. -/
def optCd (variant : CdVariant N V H ℚ) (env : CdEnv N V H RS)
    (st : LoopSt N V H RS) : Bool × LoopSt N V H RS :=
  (true, optCdGo variant env st.cfg.updates 0 st)

/-- Uncaught Python exceptions of the embedded code paths. -/
inductive PyErr where
  | nameError : PyErr
deriving DecidableEq

/-- Python `str.lower()` on the configured names (ASCII identifiers):
each character is lowercased. -/
def strLower (s : String) : String :=
  ⟨s.data.map Char.toLower⟩

/-- `rbm._optParams` (rbm.py lines 125-147): logs notes about the
enabled modifiers (I/O, no state effect), then dispatches on the
configured algorithm name: `'cd'` (case-insensitively) runs `_optCd`.
Any other name reaches the line
`return nemoa.log('error', "... unknown optimization algorithm" %
(algorithm))`, which interpolates the local name `algorithm` that is
never assigned in `_optParams` — in Python this raises an uncontrolled
`NameError` instead of logging and returning `False`. -/
def optParams (variant : CdVariant N V H ℚ) (env : CdEnv N V H RS)
    (st : LoopSt N V H RS) :
    Except PyErr (Bool × LoopSt N V H RS) :=
  if strLower st.cfg.algorithm = "cd" then Except.ok (optCd variant env st)
  else Except.error PyErr.nameError

/-- `system.optimizeParams` (base.py lines 278-315) specialized to the
grbm class, with `cfg` the schedule-resolved optimize configuration.  If
`checkDataset` is enabled (the grbm default) and
`grbm._checkDataset`, i.e. `_isDatasetGaussNormalized`, rejects the
dataset sample `dsData`, the call returns `False` before the tracker or
the epoch loop run, leaving the parameters untouched; otherwise the
tracker is created and `_optParams` runs. -/
def grbmOptimizeParams (expFn : ℚ → ℚ) (env : CdEnv N V H RS) (rs0 : RS)
    (cfg : OptCfg ℚ) (p : Params V H ℚ) (dsData : Mat N V ℚ) :
    Except PyErr (Bool × Params V H ℚ) :=
  if cfg.checkDataset ∧ isDatasetGaussNormalized dsData = false then
    Except.ok (false, p)
  else
    let st0 : LoopSt N V H RS :=
      { cfg := cfg, p := p, data := fun _ _ => 0, rs := rs0,
        ts := trackerFresh, wVar := [] }
    (optParams (grbmVariant expFn) env st0).map (fun r => (r.1, r.2.p))

end OuterLoop

section Links

/-- The link dictionary `_params['links'][(0, 1)]` together with the two
unit label lists: an adjacency matrix `A` and a weight matrix `W`
(numpy arrays, embedded as position-indexed functions), with row index
ranging over the visible labels and column index over the hidden
labels. -/
structure LinkState where
  vLabel : List String
  hLabel : List String
  A : ℕ → ℕ → Bool
  W : ℕ → ℕ → ℚ

/-- `rbm._unlinkUnit` (rbm.py lines 379-389): if the unit is a visible
label, its row of the adjacency matrix is set to `False`; if it is a
hidden label, its column is cleared; otherwise nothing happens and
`False` is returned.  The weight matrix is never touched. -/
def unlinkUnit (st : LinkState) (unit : String) : Bool × LinkState :=
  if unit ∈ st.vLabel then
    let i := st.vLabel.indexOf unit
    (true, { st with A := fun r c => if r = i then false else st.A r c })
  else if unit ∈ st.hLabel then
    let i := st.hLabel.indexOf unit
    (true, { st with A := fun r c => if c = i then false else st.A r c })
  else (false, st)

/-- `rbm._updateLinks` (rbm.py lines 483-486): adds the weight delta to
every entry of the weight matrix; the adjacency matrix is not
consulted. -/
def updateLinks (st : LinkState) (dW : ℕ → ℕ → ℚ) : LinkState :=
  { st with W := fun i j => st.W i j + dW i j }

end Links

/-! ## Concrete test fixtures -/

/-- A concrete rbm-style optimize configuration over the rationals.  The
fields shared with `rbm._default('optimize')` (rbm.py lines 44-74) carry
the source's default values; the `modVmra*` keys, absent from the source
defaults although read by `_optParams` and `_optCd`, and the grbm-only
`updateFactorVlvar` are given arbitrary values, disabled where they have
a toggle. -/
def rbmBaseCfg : OptCfg ℚ where
  algorithm := "vrcd"
  updates := 100000
  minibatchInterval := 10
  updateCdkSteps := 1
  updateCdkIterations := 1
  updateRate := 1 / 10
  updateFactorWeights := 1
  updateFactorHbias := 1 / 10
  updateFactorVbias := 1 / 10
  updateFactorVlvar := 1 / 100
  ignoreUnits := []
  modKlEnable := true
  modKlRate := 0
  modKlExpect := 1 / 2
  selectivityFactor := 0
  modVmraEnable := false
  modVmraInterval := 1
  modVmraWait := 0
  modVmraLength := 2
  modVmraFactor := 1
  modVmraMinRate := 1 / 1000
  modVmraMaxRate := 1 / 10
  checkDataset := false

/-! ## Claim C1 -/

/-- Modelled from the spec (for comparison with the source definition
`optCdDeltaL`): the claimed link-weight delta
`r_w * (dot(vData.T, hData) / N - dot(vModel.T, hModel) / N)` where `N`
is the batch sample count and `r_w = updateRate * updateFactorWeights`. -/
def deltaLinkSpecN {N V H : ℕ} (cfg : OptCfg ℚ) (t : DTuple N V H ℚ)
    (i : Fin V) (j : Fin H) : ℚ :=
  cfg.updateRate * cfg.updateFactorWeights *
    (dotT t.vData t.hData i j / (N : ℚ) - dotT t.vModel t.hModel i j / (N : ℚ))

/-- C1 counterexample configuration: unit rate and weight factor. -/
def cfgC1 : OptCfg ℚ :=
  { rbmBaseCfg with updateRate := 1, updateFactorWeights := 1 }

/-- C1 counterexample batch: one sample, two visible units, one hidden
unit; data all ones, model all zeros. -/
def tC1 : DTuple 1 2 1 ℚ where
  vData := fun _ _ => 1
  hData := fun _ _ => 1
  vModel := fun _ _ => 0
  hModel := fun _ _ => 0

/-- Evaluation helper: `finSum` over a singleton index range. -/
theorem finSum_one {α : Type} [Zero α] [Add α] (f : Fin 1 → α) :
    finSum f = f 0 + 0 :=
  rfl

/-- Evaluation helper: `finSum` over a two-element index range. -/
theorem finSum_two {α : Type} [Zero α] [Add α] (f : Fin 2 → α) :
    finSum f = f 0 + (f 1 + 0) :=
  rfl

/-- C1 counterexample: for a batch of `N = 1` sample over `V = 2` visible
units, the source link delta divides by `vData.size = N * V = 2` and
yields `1/2`, while the claimed formula with `N` the sample count yields
`1`; the two disagree. -/
theorem optCdDeltaL_sample_count_counterexample_C1 :
    optCdDeltaL cfgC1 tC1 0 0 = 1 / 2 ∧ deltaLinkSpecN cfgC1 tC1 0 0 = 1 ∧
      optCdDeltaL cfgC1 tC1 0 0 ≠ deltaLinkSpecN cfgC1 tC1 0 0 := by
  have h1 : optCdDeltaL cfgC1 tC1 0 0 = 1 / 2 := by
    simp only [optCdDeltaL, cfgC1, rbmBaseCfg, tC1, dotT, finSum_one]
    norm_num
  have h2 : deltaLinkSpecN cfgC1 tC1 0 0 = 1 := by
    simp only [deltaLinkSpecN, cfgC1, rbmBaseCfg, tC1, dotT, finSum_one]
    norm_num
  exact ⟨h1, h2, by rw [h1, h2]; norm_num⟩

/-- C1 (amended): the link-weight delta computed by one CD update equals
the claimed sample-count-normalized expression divided once more by the
number of visible units `V`, because the source normalizes by
`vData.size = N * V`; for the Gaussian-visible variant the same holds
with a further division by the per-visible-unit variance
`exp(log_variance)`. -/
theorem optCdDeltaL_eq_specN_div_V_C1 {N V H : ℕ} (cfg : OptCfg ℚ)
    (p : Params V H ℚ) (t : DTuple N V H ℚ) (expFn : ℚ → ℚ)
    (i : Fin V) (j : Fin H) :
    optCdDeltaL cfg t i j = deltaLinkSpecN cfg t i j / (V : ℚ) ∧
      grbmOptCdDeltaL expFn cfg p t i j
        = deltaLinkSpecN cfg t i j / ((V : ℚ) * expFn (p.vlvar i)) := by
  constructor
  · simp only [optCdDeltaL, deltaLinkSpecN, Nat.cast_mul]
    rw [← div_div, ← div_div, div_sub_div_same, mul_div_assoc]
  · simp only [grbmOptCdDeltaL, deltaLinkSpecN, Nat.cast_mul]
    rw [← div_div, ← div_div, div_sub_div_same, mul_div_assoc, mul_div_assoc,
      div_div]

/-! ## Claim C2 -/

/-- C2 configuration over extended floats: sparsity and selectivity
disabled, no ignored unit classes. -/
def cfgC2 : OptCfg EF where
  algorithm := "cd"
  updates := 1
  minibatchInterval := 1
  updateCdkSteps := 1
  updateCdkIterations := 1
  updateRate := EF.fin (1 / 10)
  updateFactorWeights := EF.fin 1
  updateFactorHbias := EF.fin (1 / 10)
  updateFactorVbias := EF.fin (1 / 10)
  updateFactorVlvar := EF.fin (1 / 100)
  ignoreUnits := []
  modKlEnable := false
  modKlRate := EF.fin 0
  modKlExpect := EF.fin (1 / 2)
  selectivityFactor := EF.fin 0
  modVmraEnable := false
  modVmraInterval := 1
  modVmraWait := 0
  modVmraLength := 2
  modVmraFactor := EF.fin 1
  modVmraMinRate := EF.fin (1 / 1000)
  modVmraMaxRate := EF.fin (1 / 10)
  checkDataset := false

/-- C2 parameters: finite zeros everywhere. -/
def pC2 : Params 1 1 EF where
  vbias := fun _ => EF.fin 0
  vlvar := fun _ => EF.fin 0
  hbias := fun _ => EF.fin 0
  W := fun _ _ => EF.fin 0

/-- C2 degenerate sampling tuple: an empty minibatch (`N = 0` samples),
for which every CD delta is a `0 / 0` mean, i.e. NaN in numpy. -/
def tC2 : DTuple 0 1 1 EF where
  vData := fun s _ => s.elim0
  hData := fun s _ => s.elim0
  vModel := fun s _ => s.elim0
  hModel := fun s _ => s.elim0

/-- C2: `_optCdUpdate` contains no finiteness check: the non-finite
deltas of a degenerate epoch are applied to the parameters unconditionally,
so the previously finite visible bias, hidden bias and weight matrix all
become non-finite and stay corrupted for subsequent epochs, instead of the
epoch being skipped with a warning. -/
theorem optCdUpdate_applies_nonfinite_deltas_C2 :
    (optCdUpdate rbmVariant cfgC2 pC2 tC2).vbias 0 = EF.nan ∧
      (optCdUpdate rbmVariant cfgC2 pC2 tC2).hbias 0 = EF.nan ∧
      (optCdUpdate rbmVariant cfgC2 pC2 tC2).W 0 0 = EF.nan := by
  decide

/-! ## Claim C3 -/

section ParamsIte

variable {V H : ℕ} {α : Type} {c : Prop} [Decidable c]

/-- Projection commutes with a conditional on parameter records. -/
@[simp] theorem paramsIteVbias (a b : Params V H α) :
    (if c then a else b).vbias = if c then a.vbias else b.vbias := by
  split_ifs <;> rfl

/-- Projection commutes with a conditional on parameter records. -/
@[simp] theorem paramsIteVlvar (a b : Params V H α) :
    (if c then a else b).vlvar = if c then a.vlvar else b.vlvar := by
  split_ifs <;> rfl

/-- Projection commutes with a conditional on parameter records. -/
@[simp] theorem paramsIteHbias (a b : Params V H α) :
    (if c then a else b).hbias = if c then a.hbias else b.hbias := by
  split_ifs <;> rfl

/-- Projection commutes with a conditional on parameter records. -/
@[simp] theorem paramsIteW (a b : Params V H α) :
    (if c then a else b).W = if c then a.W else b.W := by
  split_ifs <;> rfl

end ParamsIte

/-- C3: for every parameter class listed in `ignoreUnits`, the parameters
of that class — bias and log-variance for the visible units, bias for the
hidden units (including the sparsity and selectivity additions, which are
guarded by the same membership test), the weight matrix for the links —
are unchanged by `_optCdUpdate`, whatever deltas the variant computes. -/
theorem optCdUpdate_ignoreUnits_unchanged_C3 {N V H : ℕ}
    (variant : CdVariant N V H ℚ) (cfg : OptCfg ℚ) (p : Params V H ℚ)
    (t : DTuple N V H ℚ) :
    ("visible" ∈ cfg.ignoreUnits →
        (optCdUpdate variant cfg p t).vbias = p.vbias ∧
          (optCdUpdate variant cfg p t).vlvar = p.vlvar) ∧
      ("hidden" ∈ cfg.ignoreUnits →
        (optCdUpdate variant cfg p t).hbias = p.hbias) ∧
      ("links" ∈ cfg.ignoreUnits →
        (optCdUpdate variant cfg p t).W = p.W) := by
  refine ⟨fun hv => ⟨?_, ?_⟩, fun hh => ?_, fun hl => ?_⟩ <;>
    simp [optCdUpdate, unitUpdateV, *]

/-- C3 witness configuration: all three parameter classes ignored. -/
def cfgC3w : OptCfg ℚ :=
  { rbmBaseCfg with ignoreUnits := ["visible", "hidden", "links"] }

/-- A concrete nonzero parameter record. -/
def pQ1 : Params 1 1 ℚ :=
  ⟨fun _ => 3, fun _ => 5, fun _ => 7, fun _ _ => 11⟩

/-- A concrete sampling tuple with ones as data and zeros as model. -/
def tQ1 : DTuple 1 1 1 ℚ :=
  ⟨fun _ _ => 1, fun _ _ => 1, fun _ _ => 0, fun _ _ => 0⟩

/-- C3 witness: with all three classes ignored, a concrete update leaves
every parameter field untouched. -/
theorem optCdUpdate_ignoreUnits_unchanged_C3_witness :
    ("visible" ∈ cfgC3w.ignoreUnits ∧ "hidden" ∈ cfgC3w.ignoreUnits ∧
        "links" ∈ cfgC3w.ignoreUnits) ∧
      (optCdUpdate rbmVariant cfgC3w pQ1 tQ1).vbias = pQ1.vbias ∧
      (optCdUpdate rbmVariant cfgC3w pQ1 tQ1).vlvar = pQ1.vlvar ∧
      (optCdUpdate rbmVariant cfgC3w pQ1 tQ1).hbias = pQ1.hbias ∧
      (optCdUpdate rbmVariant cfgC3w pQ1 tQ1).W = pQ1.W := by
  refine ⟨⟨by decide, by decide, by decide⟩, ?_, ?_, ?_, ?_⟩
  · exact ((optCdUpdate_ignoreUnits_unchanged_C3 _ _ _ _).1 (by decide)).1
  · exact ((optCdUpdate_ignoreUnits_unchanged_C3 _ _ _ _).1 (by decide)).2
  · exact (optCdUpdate_ignoreUnits_unchanged_C3 _ _ _ _).2.1 (by decide)
  · exact (optCdUpdate_ignoreUnits_unchanged_C3 _ _ _ _).2.2 (by decide)

/-! ## Claim C9 -/

/-- C9: when the KL penalty is enabled, the selectivity factor is
positive and the hidden units are not ignored, one epoch update adds the
identical KL sparsity delta
`-max(updateRate, modKlRate) * (mean(hData) - modKlExpect)` to the
hidden bias twice — once from the sparsity branch and once more from the
selectivity branch, which calls the same `_optKlDeltaH`. -/
theorem optCdUpdate_double_kl_delta_C9 {N V H : ℕ}
    (variant : CdVariant N V H ℚ) (cfg : OptCfg ℚ) (p : Params V H ℚ)
    (t : DTuple N V H ℚ) (hkl : cfg.modKlEnable = true)
    (hsf : (0 : ℚ) < cfg.selectivityFactor)
    (hid : "hidden" ∉ cfg.ignoreUnits) :
    (optCdUpdate variant cfg p t).hbias = fun j =>
      p.hbias j + optCdDeltaH cfg t j
        + (-(max cfg.updateRate cfg.modKlRate)
            * (colMean t.hData j - cfg.modKlExpect))
        + (-(max cfg.updateRate cfg.modKlRate)
            * (colMean t.hData j - cfg.modKlExpect)) := by
  unfold optCdUpdate unitUpdateV optKlDeltaH
  dsimp only
  split_ifs <;>
    first
      | rfl
      | exact absurd (And.intro hkl hid) (by assumption)
      | exact absurd (And.intro hsf hid) (by assumption)

/-- C9 witness: a concrete epoch with KL and selectivity enabled. -/
theorem optCdUpdate_double_kl_delta_C9_witness :
    let cfg : OptCfg ℚ := { rbmBaseCfg with selectivityFactor := 1 / 2 }
    let p : Params 1 1 ℚ :=
      ⟨fun _ => 3, fun _ => 5, fun _ => 7, fun _ _ => 11⟩
    let t : DTuple 1 1 1 ℚ :=
      ⟨fun _ _ => 1, fun _ _ => 1, fun _ _ => 0, fun _ _ => 0⟩
    (optCdUpdate rbmVariant cfg p t).hbias = fun j =>
      p.hbias j + optCdDeltaH cfg t j
        + (-(max cfg.updateRate cfg.modKlRate)
            * (colMean t.hData j - cfg.modKlExpect))
        + (-(max cfg.updateRate cfg.modKlRate)
            * (colMean t.hData j - cfg.modKlExpect)) :=
  optCdUpdate_double_kl_delta_C9 rbmVariant _ _ _ (by decide)
    (by norm_num [rbmBaseCfg]) (by decide)

/-! ## Claim C4 -/

/-- Auxiliary: on an already-started, non-aborted tracker, `n` triggers
with no abort input advance the epoch by `n` and change nothing else. -/
theorem runTriggers_replicate_none (n : ℕ) (ts : TrackerSt) (u : ℕ)
    (hs : ts.started = true) (ha : ts.abort = false) :
    runTriggers (List.replicate n none) ts u
      = (⟨true, ts.epoch + n, false⟩, u) := by
  induction n generalizing ts with
  | zero =>
    cases ts
    simp_all [runTriggers]
  | succ n ih =>
    rw [List.replicate_succ]
    simp only [runTriggers, trigger, triggerKeyEvent, hs, if_true]
    rw [ih ⟨true, ts.epoch + 1, ts.abort⟩ rfl ha]
    have h : ts.epoch + 1 + n = ts.epoch + (n + 1) := by omega
    simp [h]

/-- Auxiliary: from a fresh tracker, `n ≥ 1` triggers with no abort input
initialize the state and leave the epoch at `n`. -/
theorem runTriggers_fresh (n u : ℕ) (hn : 1 ≤ n) :
    runTriggers (List.replicate n none) trackerFresh u
      = (⟨true, n, false⟩, u) := by
  obtain ⟨m, rfl⟩ : ∃ m, n = m + 1 := ⟨n - 1, by omega⟩
  rw [List.replicate_succ]
  simp only [runTriggers, trigger, triggerKeyEvent, trackerFresh,
    Bool.false_eq_true, if_false]
  rw [runTriggers_replicate_none m ⟨true, 0 + 1, false⟩ u rfl rfl]
  simp [Nat.add_comm]

/-- C4: `N` `trigger()` calls on a fresh tracker with no abort input from
the key source leave the epoch counter at `N`, the abort flag clear, and
the configured update count untouched; if instead the abort character
`'q'` is read on call `k` (`1 ≤ k < N`), that call sets the abort flag,
truncates the configured update count to `k`, and returns `'abort'`. -/
theorem tracker_trigger_C4 (N k u : ℕ) (hk1 : 1 ≤ k) (hkN : k < N) :
    ((runTriggers (List.replicate N none) trackerFresh u).1.epoch = N ∧
        (runTriggers (List.replicate N none) trackerFresh u).1.abort = false ∧
        (runTriggers (List.replicate N none) trackerFresh u).2 = u) ∧
      ((trigger (some 'q')
          (runTriggers (List.replicate (k - 1) none) trackerFresh u).1
          (runTriggers (List.replicate (k - 1) none) trackerFresh u).2).1.abort
          = true ∧
        (trigger (some 'q')
          (runTriggers (List.replicate (k - 1) none) trackerFresh u).1
          (runTriggers (List.replicate (k - 1) none) trackerFresh u).2).2.1
          = k ∧
        (trigger (some 'q')
          (runTriggers (List.replicate (k - 1) none) trackerFresh u).1
          (runTriggers (List.replicate (k - 1) none) trackerFresh u).2).2.2
          = TrigRes.abort) := by
  constructor
  · rw [runTriggers_fresh N u (by omega)]
    exact ⟨rfl, rfl, rfl⟩
  · obtain ⟨m, rfl⟩ : ∃ m, k = m + 1 := ⟨k - 1, by omega⟩
    cases m with
    | zero =>
      simp [runTriggers, trigger, triggerKeyEvent, trackerFresh]
    | succ m2 =>
      rw [show m2 + 1 + 1 - 1 = m2 + 1 by omega,
        runTriggers_fresh (m2 + 1) u (by omega)]
      simp [trigger, triggerKeyEvent]

/-- C4 witness: three no-abort triggers count to three; an abort on the
second of three calls truncates the update count to two. -/
theorem tracker_trigger_C4_witness :
    (1 ≤ 2 ∧ 2 < 3) ∧
      (((runTriggers (List.replicate 3 none) trackerFresh 100).1.epoch = 3 ∧
          (runTriggers (List.replicate 3 none) trackerFresh 100).1.abort
            = false ∧
          (runTriggers (List.replicate 3 none) trackerFresh 100).2 = 100) ∧
        ((trigger (some 'q')
            (runTriggers (List.replicate (2 - 1) none) trackerFresh 100).1
            (runTriggers (List.replicate (2 - 1) none) trackerFresh 100).2).1.abort
            = true ∧
          (trigger (some 'q')
            (runTriggers (List.replicate (2 - 1) none) trackerFresh 100).1
            (runTriggers (List.replicate (2 - 1) none) trackerFresh 100).2).2.1
            = 2 ∧
          (trigger (some 'q')
            (runTriggers (List.replicate (2 - 1) none) trackerFresh 100).1
            (runTriggers (List.replicate (2 - 1) none) trackerFresh 100).2).2.2
            = TrigRes.abort)) :=
  ⟨⟨by decide, by decide⟩, tracker_trigger_C4 3 2 100 (by decide) (by decide)⟩

/-! ## Claim C8 -/

/-- C8: for every step count `k ≥ 1` and `m = 1`, the general
Gibbs-sampling path returns, with the same random source, exactly the
single chain's final `(vExpect, hExpect)` as `(vModel, hModel)`: the
accumulation of `vExpect / m` and `hExpect / m` into zero-initialized
arrays is exact for `m = 1`. -/
theorem optCdSamplingGen_m1_single_chain_C8 {N V H : ℕ} {RS : Type}
    (ops : SampleOps N V H ℚ RS) (k : ℕ) (data : Mat N V ℚ) (rs : RS)
    (hk : 1 ≤ k) :
    optCdSamplingGen ops k 1 data rs
      = (⟨data, ops.expectVH data,
            (cdChainGo ops k (ops.expectVH data) rs).1.1,
            (cdChainGo ops k (ops.expectVH data) rs).1.2⟩,
          (cdChainGo ops k (ops.expectVH data) rs).2) := by
  have hv : (fun (s : Fin N) (i : Fin V) =>
      (0 : ℚ) + (cdChainGo ops k (ops.expectVH data) rs).1.1 s i
        / ((1 : ℕ) : ℚ))
      = (cdChainGo ops k (ops.expectVH data) rs).1.1 := by
    funext s i
    simp
  have hh : (fun (s : Fin N) (j : Fin H) =>
      (0 : ℚ) + (cdChainGo ops k (ops.expectVH data) rs).1.2 s j
        / ((1 : ℕ) : ℚ))
      = (cdChainGo ops k (ops.expectVH data) rs).1.2 := by
    funext s j
    simp
  simp only [optCdSamplingGen, cdChains, hv, hh]

/-- C8 witness sampling primitives: identity expectations, sampling
threads a counter as its random state. -/
def opsW : SampleOps 1 1 1 ℚ ℕ where
  expectVH := fun d => d
  expectHV := fun h => h
  sampleH := fun h rs => (h, rs + 1)
  sampleVHexp := fun v rs => (v, rs + 1)
  sampleHVexp := fun h rs => (h, rs + 1)

/-- C8 witness: the general path at `k = 1, m = 1` on concrete data. -/
theorem optCdSamplingGen_m1_single_chain_C8_witness :
    1 ≤ 1 ∧
      optCdSamplingGen opsW 1 1 (fun _ _ => (1 : ℚ)) 0
        = (⟨fun _ _ => (1 : ℚ), opsW.expectVH (fun _ _ => (1 : ℚ)),
              (cdChainGo opsW 1 (opsW.expectVH (fun _ _ => (1 : ℚ))) 0).1.1,
              (cdChainGo opsW 1 (opsW.expectVH (fun _ _ => (1 : ℚ))) 0).1.2⟩,
            (cdChainGo opsW 1 (opsW.expectVH (fun _ _ => (1 : ℚ))) 0).2) :=
  ⟨by decide,
    optCdSamplingGen_m1_single_chain_C8 opsW 1 (fun _ _ => (1 : ℚ)) 0
      (by decide)⟩

/-! ## Claim C5 -/

/-- C5: with dataset checking enabled, `optimizeParams` on the
Gaussian-visible model rejects a dataset sample whose absolute mean is at
least `0.05` or whose variance is at least `1.05 ^ 2` (equivalently,
standard deviation at least `1.05`): it returns `False` before the epoch
loop runs and the parameters are returned bit-for-bit unchanged. -/
theorem grbmOptimizeParams_rejects_unnormalized_C5 {N V H : ℕ} {RS : Type}
    (expFn : ℚ → ℚ) (env : CdEnv N V H RS) (rs0 : RS) (cfg : OptCfg ℚ)
    (p : Params V H ℚ) (d : Mat N V ℚ) (hchk : cfg.checkDataset = true)
    (hbad : (1 / 20 : ℚ) ≤ |matMean d| ∨ ((21 / 20 : ℚ)) ^ 2 ≤ matVar d) :
    grbmOptimizeParams expFn env rs0 cfg p d = Except.ok (false, p) := by
  have hg : isDatasetGaussNormalized d = false := by
    unfold isDatasetGaussNormalized
    rcases hbad with hb | hb
    · rw [if_pos hb]
    · by_cases h1 : (1 / 20 : ℚ) ≤ |matMean d|
      · rw [if_pos h1]
      · rw [if_neg h1, if_pos hb]
  unfold grbmOptimizeParams
  rw [if_pos ⟨hchk, hg⟩]

/-- C5 witness environment: trivial collaborators over one unit per
layer. -/
def envW : CdEnv 1 1 1 ℕ where
  ops := opsW
  getData := fun _ => fun _ _ => 1
  keys := fun _ => none

/-- C5 witness configuration: the grbm defaults enable the dataset
check and use the `'cd'` algorithm. -/
def cfgC5w : OptCfg ℚ :=
  { rbmBaseCfg with algorithm := "cd", checkDataset := true }

/-- C5 witness: a constant-one dataset sample has mean `1 ≥ 0.05` and is
rejected, the parameters coming back unchanged. -/
theorem grbmOptimizeParams_rejects_unnormalized_C5_witness :
    (cfgC5w.checkDataset = true ∧
        ((1 / 20 : ℚ) ≤ |matMean (fun _ _ => (1 : ℚ) : Mat 1 1 ℚ)| ∨
          ((21 / 20 : ℚ)) ^ 2 ≤ matVar (fun _ _ => (1 : ℚ) : Mat 1 1 ℚ))) ∧
      grbmOptimizeParams id envW 0 cfgC5w pQ1 (fun _ _ => (1 : ℚ))
        = Except.ok (false, pQ1) := by
  have hm : matMean (fun _ _ => (1 : ℚ) : Mat 1 1 ℚ) = 1 := by
    simp [matMean, matSum, finSum_one]
  have hbad : (1 / 20 : ℚ) ≤ |matMean (fun _ _ => (1 : ℚ) : Mat 1 1 ℚ)| ∨
      ((21 / 20 : ℚ)) ^ 2 ≤ matVar (fun _ _ => (1 : ℚ) : Mat 1 1 ℚ) := by
    left
    rw [hm]
    norm_num
  exact ⟨⟨rfl, hbad⟩,
    grbmOptimizeParams_rejects_unnormalized_C5 id envW 0 cfgC5w pQ1 _
      rfl hbad⟩

/-! ## Claim C7 -/

/-- C7: when the resolved configuration names any algorithm other than
`'cd'` (case-insensitively), `_optParams` does not return a logged
failure: the error-logging line interpolates the unbound local name
`algorithm`, so the call raises an uncontrolled Python `NameError` —
notably the rbm default algorithm name `'vrcd'` itself takes this
path. -/
theorem optParams_unknown_algorithm_nameError_C7 {N V H : ℕ} {RS : Type}
    (variant : CdVariant N V H ℚ) (env : CdEnv N V H RS)
    (st : LoopSt N V H RS) (h : ¬strLower st.cfg.algorithm = "cd") :
    optParams variant env st = Except.error PyErr.nameError := by
  unfold optParams
  rw [if_neg h]

/-- C7 witness loop state: the rbm default configuration, whose
algorithm entry is `'vrcd'`. -/
def stC7w : LoopSt 1 1 1 ℕ :=
  { cfg := rbmBaseCfg, p := pQ1, data := fun _ _ => 1, rs := 0,
    ts := trackerFresh, wVar := [] }

/-- C7 witness: running `_optParams` with the default `'vrcd'` algorithm
name reaches the NameError path. -/
theorem optParams_unknown_algorithm_nameError_C7_witness :
    ¬strLower stC7w.cfg.algorithm = "cd" ∧
      optParams rbmVariant envW stC7w = Except.error PyErr.nameError :=
  ⟨by decide,
    optParams_unknown_algorithm_nameError_C7 rbmVariant envW stC7w
      (by decide)⟩

/-! ## Claim C6 -/

/-- `getD` with the default never used agrees with `get` in bounds. -/
theorem getD_eq_get_of_lt (ws : List ℚ) (i : ℕ) (h : i < ws.length) :
    ws.getD i 0 = ws.get ⟨i, h⟩ := by
  simp [List.getD_eq_getElem?_getD, List.getElem?_eq_getElem h]

/-- The least-squares slope of a history that increases strictly with
the index (i.e. whose values decreased strictly over time, newest first)
is nonnegative: the numerator is nonnegative by Chebyshev's sum
inequality and the denominator by Cauchy-Schwarz. -/
theorem lstsqSlope_nonneg (ws : List ℚ)
    (hchain : List.Chain' (· < ·) ws) : 0 ≤ lstsqSlope ws := by
  have hpair : List.Pairwise (· < ·) ws := List.chain'_iff_pairwise.mp hchain
  have hmono : MonovaryOn (fun i : ℕ => (i : ℚ)) (fun i => ws.getD i 0)
      ↑(Finset.range ws.length) := by
    intro i hi j hj hlt
    have hi2 : i < ws.length := Finset.mem_range.mp (Finset.mem_coe.mp hi)
    have hj2 : j < ws.length := Finset.mem_range.mp (Finset.mem_coe.mp hj)
    by_contra hij
    push_neg at hij
    have hji : j < i := by exact_mod_cast hij
    have hlt2 : ws.getD j 0 < ws.getD i 0 := by
      rw [getD_eq_get_of_lt ws j hj2, getD_eq_get_of_lt ws i hi2]
      exact List.pairwise_iff_get.mp hpair ⟨j, hj2⟩ ⟨i, hi2⟩ hji
    exact absurd hlt (not_lt.mpr (le_of_lt hlt2))
  have cheb := hmono.sum_mul_sum_le_card_mul_sum
  rw [Finset.card_range] at cheb
  have csq := sq_sum_le_card_mul_sum_sq (s := Finset.range ws.length)
    (f := fun i : ℕ => (i : ℚ))
  rw [Finset.card_range] at csq
  unfold lstsqSlope
  dsimp only
  apply div_nonneg
  · linarith
  · linarith [sq_nonneg (∑ i ∈ Finset.range ws.length, (i : ℚ))]

/-- C6 (amended): once the weight-variance history exceeds the window
and the recorded values decreased strictly over time, the adaption step
sets the rate to `min(max(modVmraFactor * (-slope), modVmraMinRate),
modVmraMaxRate)`; provided additionally the gain `modVmraFactor` is
nonnegative and `modVmraMinRate` is nonnegative and not larger than the
previous rate, the new rate is at most the previous rate; and whenever
`modVmraMinRate ≤ modVmraMaxRate`, the new rate lies within
`[modVmraMinRate, modVmraMaxRate]`.  (As stated the original claim
fails when the previous rate lies below `modVmraMinRate`.) -/
theorem optVmraUpdate_amended_C6 {V H : ℕ} (cfg : OptCfg ℚ)
    (store : List ℚ) (W : Mat V H ℚ)
    (hfull : cfg.modVmraLength < (matVar W :: store).length)
    (hdec : List.Chain' (· < ·)
      ((matVar W :: store).take cfg.modVmraLength)) :
    (0 ≤ cfg.modVmraFactor → 0 ≤ cfg.modVmraMinRate →
        cfg.modVmraMinRate ≤ cfg.updateRate →
        (optVmraUpdate cfg store W).1.updateRate ≤ cfg.updateRate) ∧
      (cfg.modVmraMinRate ≤ cfg.modVmraMaxRate →
        cfg.modVmraMinRate ≤ (optVmraUpdate cfg store W).1.updateRate ∧
          (optVmraUpdate cfg store W).1.updateRate
            ≤ cfg.modVmraMaxRate) := by
  have hslope : 0 ≤ lstsqSlope ((matVar W :: store).take cfg.modVmraLength) :=
    lstsqSlope_nonneg _ hdec
  have hres : (optVmraUpdate cfg store W).1.updateRate
      = min (max (cfg.modVmraFactor
          * -lstsqSlope ((matVar W :: store).take cfg.modVmraLength))
          cfg.modVmraMinRate) cfg.modVmraMaxRate := by
    unfold optVmraUpdate
    dsimp only
    rw [if_pos hfull]
  rw [hres]
  constructor
  · intro hf hmn hrate
    have hdelw : cfg.modVmraFactor
        * -lstsqSlope ((matVar W :: store).take cfg.modVmraLength) ≤ 0 := by
      rw [mul_neg]
      exact neg_nonpos.mpr (mul_nonneg hf hslope)
    calc min (max (cfg.modVmraFactor
          * -lstsqSlope ((matVar W :: store).take cfg.modVmraLength))
          cfg.modVmraMinRate) cfg.modVmraMaxRate
        ≤ max (cfg.modVmraFactor
          * -lstsqSlope ((matVar W :: store).take cfg.modVmraLength))
          cfg.modVmraMinRate := min_le_left _ _
      _ = cfg.modVmraMinRate := max_eq_right (le_trans hdelw hmn)
      _ ≤ cfg.updateRate := hrate
  · intro hmx
    exact ⟨le_min (le_max_right _ _) hmx, min_le_right _ _⟩

/-- C6 counterexample configuration: the previous update rate lies below
the configured minimum rate. -/
def cfgC6 : OptCfg ℚ :=
  { rbmBaseCfg with
    updateRate := 1 / 2000
    modVmraEnable := true
    modVmraLength := 2
    modVmraFactor := 1
    modVmraMinRate := 1 / 1000
    modVmraMaxRate := 1 / 100 }

/-- C6 counterexample stored history (newest first): earlier variances
`3`, then `2`. -/
def storeC6 : List ℚ := [2, 3]

/-- C6 counterexample weight matrix with variance `1`. -/
def WC6 : Mat 1 2 ℚ := fun _ j => 2 * ((j : ℕ) : ℚ)

/-- Evaluation helper: the counterexample weight variance is `1`, so the
recorded history `1, 2, 3` (newest first) decreased strictly over
time. -/
theorem matVar_WC6 : matVar WC6 = 1 := by
  simp only [matVar, matMean, matSum, WC6, finSum_one, finSum_two]
  norm_num [Fin.val_zero, Fin.val_one]

/-- Evaluation helper: the truncated history of the counterexample. -/
theorem takeC6 : (matVar WC6 :: storeC6).take cfgC6.modVmraLength
    = [1, 2] := by
  rw [matVar_WC6]
  rfl

/-- Evaluation helper: the least-squares slope of the truncated
counterexample history. -/
theorem lstsqSlope_C6 : lstsqSlope [(1 : ℚ), 2] = 1 := by
  unfold lstsqSlope
  dsimp only
  norm_num [Finset.sum_range_succ]

/-- C6 counterexample: with the history full and strictly decreasing
over time, the adaption step raises the rate from `1/2000` to the
clamped value `1/1000 > 1/2000`, contradicting the claim that the new
rate is less than or equal to the previous rate. -/
theorem optVmraUpdate_rate_increase_counterexample_C6 :
    cfgC6.modVmraLength < (matVar WC6 :: storeC6).length ∧
      List.Chain' (· < ·) ((matVar WC6 :: storeC6).take cfgC6.modVmraLength) ∧
      cfgC6.updateRate = 1 / 2000 ∧
      (optVmraUpdate cfgC6 storeC6 WC6).1.updateRate = 1 / 1000 ∧
      ¬(optVmraUpdate cfgC6 storeC6 WC6).1.updateRate
        ≤ cfgC6.updateRate := by
  have hr : (optVmraUpdate cfgC6 storeC6 WC6).1.updateRate
      = min (max (cfgC6.modVmraFactor
          * -lstsqSlope ((matVar WC6 :: storeC6).take cfgC6.modVmraLength))
          cfgC6.modVmraMinRate) cfgC6.modVmraMaxRate := by
    unfold optVmraUpdate
    dsimp only
    rw [if_pos (by decide)]
  have hval : (optVmraUpdate cfgC6 storeC6 WC6).1.updateRate = 1 / 1000 := by
    rw [hr, takeC6, lstsqSlope_C6]
    show min (max ((1 : ℚ) * -1) (1 / 1000)) (1 / 100) = 1 / 1000
    rw [max_def, min_def]
    norm_num
  refine ⟨by decide, ?_, rfl, hval, ?_⟩
  · rw [takeC6]
    norm_num [List.chain'_cons, List.chain'_singleton]
  · rw [hval]
    norm_num [cfgC6]

/-- C6 witness configuration for the amended claim: as the
counterexample, but with a previous rate above the minimum rate. -/
def cfgC6w : OptCfg ℚ := { cfgC6 with updateRate := 1 / 2 }

/-- C6 witness: the amended statement at a concrete full, strictly
decreasing history. -/
theorem optVmraUpdate_amended_C6_witness :
    cfgC6w.modVmraLength < (matVar WC6 :: storeC6).length ∧
      List.Chain' (· < ·)
        ((matVar WC6 :: storeC6).take cfgC6w.modVmraLength) ∧
      (optVmraUpdate cfgC6w storeC6 WC6).1.updateRate ≤ cfgC6w.updateRate ∧
      (cfgC6w.modVmraMinRate ≤ (optVmraUpdate cfgC6w storeC6 WC6).1.updateRate ∧
        (optVmraUpdate cfgC6w storeC6 WC6).1.updateRate
          ≤ cfgC6w.modVmraMaxRate) := by
  have htake : (matVar WC6 :: storeC6).take cfgC6w.modVmraLength
      = [1, 2] := by
    rw [matVar_WC6]
    rfl
  have hdec : List.Chain' (· < ·)
      ((matVar WC6 :: storeC6).take cfgC6w.modVmraLength) := by
    rw [htake]
    norm_num [List.chain'_cons, List.chain'_singleton]
  refine ⟨by decide, hdec, ?_, ?_⟩
  · exact (optVmraUpdate_amended_C6 cfgC6w storeC6 WC6 (by decide) hdec).1
      (by norm_num [cfgC6w, cfgC6]) (by norm_num [cfgC6w, cfgC6])
      (by norm_num [cfgC6w, cfgC6])
  · exact (optVmraUpdate_amended_C6 cfgC6w storeC6 WC6 (by decide) hdec).2
      (by norm_num [cfgC6w, cfgC6])

/-! ## Claim C10 -/

/-- C10: unlinking a unit never changes the weight matrix or the label
lists; it returns `True` exactly when the unit belongs to one of the two
groups; it clears the unit's adjacency row (visible) or column (hidden)
and changes nothing else; and the link update adds its delta to every
entry of the weight matrix without consulting the adjacency matrix — the
result is the same for any adjacency, including entries set to `False`
by a previous unlink. -/
theorem unlinkUnit_frame_C10 (st : LinkState) (unit : String) :
    (unlinkUnit st unit).2.W = st.W ∧
      (unlinkUnit st unit).2.vLabel = st.vLabel ∧
      (unlinkUnit st unit).2.hLabel = st.hLabel ∧
      (unlinkUnit st unit).1
        = (decide (unit ∈ st.vLabel) || decide (unit ∈ st.hLabel)) ∧
      (unlinkUnit st unit).2.A
        = (if unit ∈ st.vLabel then
            fun r c => if r = st.vLabel.indexOf unit then false else st.A r c
          else if unit ∈ st.hLabel then
            fun r c => if c = st.hLabel.indexOf unit then false else st.A r c
          else st.A) ∧
      (∀ st2 : LinkState, ∀ dW r c,
        (updateLinks st2 dW).W r c = st2.W r c + dW r c) ∧
      (∀ A2 dW, (updateLinks { st with A := A2 } dW).W
        = (updateLinks st dW).W) := by
  refine ⟨?_, ?_, ?_, ?_, ?_, fun st2 dW r c => rfl, fun A2 dW => rfl⟩ <;>
    · unfold unlinkUnit
      dsimp only
      split_ifs <;> simp_all

end Nemoa
